import Mathlib

/-!
Shallow embedding of the verify-image-signatures admission policy
(`src/src/lib.rs`). Pure Rust functions become Lean functions; the external
verification oracle (a set of host capabilities) is modelled as a record of
functions passed explicitly; calls to the oracle are counted as an explicit
`Nat` effect so that call-count properties can be stated; a Rust panic
(`Option::unwrap` on `None`) is modelled by returning `none` from the
enclosing function.
-/

set_option maxHeartbeats 1000000

namespace VerifyImageSignatures

/-- `VerificationResponse` from the kubewarden SDK: a trust flag and the
digest the oracle verified. -/
structure VerificationResponse where
  is_trusted : Bool
  digest : String
  deriving DecidableEq

/-- `anyhow::Result<VerificationResponse>`: failure carries the
human-readable cause string. -/
abbrev VerifyResult := Except String VerificationResponse

/-- `BTreeMap<String, String>` of required annotation filters, modelled as an
association list. -/
abbrev Annots := List (String × String)

/-- `KeylessInfo`: an (issuer, subject) pair. -/
structure KeylessInfo where
  issuer : String
  subject : String
  deriving DecidableEq

/-- `KeylessPrefixInfo`: an (issuer, URL-prefix) pair. -/
structure KeylessPrefixInfo where
  issuer : String
  urlPrefix : String
  deriving DecidableEq

/-- Modelled from the spec: the `Signature` enum of the settings module
(`src/settings.rs` is not under `src/`); its five variants and their fields
are fully pinned down by their uses in `src/src/lib.rs` (field accesses in
`verify_container_images`) and by spec section 3. -/
inductive Signature where
  | PubKeys (image : String) (pub_keys : List String) (annots : Option Annots)
  | Keyless (image : String) (keyless : List KeylessInfo) (annots : Option Annots)
  | KeylessPrefix (image : String) (keylessPrefix : List KeylessPrefixInfo)
      (annots : Option Annots)
  | GithubActions (image : String) (owner : String) (repo : Option String)
      (annots : Option Annots)
  | Certificate (image : String) (certificates : List String)
      (certificate_chain : Option (List String)) (require_rekor_bundle : Bool)
      (annots : Option Annots)
  deriving DecidableEq

/-- `signature.image()`: the glob pattern carried by every variant. -/
def Signature.pattern : Signature → String
  | .PubKeys image _ _ => image
  | .Keyless image _ _ => image
  | .KeylessPrefix image _ _ => image
  | .GithubActions image _ _ _ => image
  | .Certificate image _ _ _ _ => image

/-- The external verification oracle: the five host-capability functions
imported by `src/src/lib.rs`, as an explicit record so deterministic
substitutes can be plugged in. -/
structure Oracle where
  verify_pub_keys_image : String → List String → Option Annots → VerifyResult
  verify_keyless_exact_match : String → List KeylessInfo → Option Annots → VerifyResult
  verify_keyless_prefix_match : String → List KeylessPrefixInfo → Option Annots → VerifyResult
  verify_keyless_github_actions : String → String → Option String → Option Annots → VerifyResult
  verify_certificate : String → String → Option (List String) → Bool → Option Annots → VerifyResult

/-- Backtracking step of glob matching: `starLoop k s` tries `k` on every
suffix of `s` (the continuation `k` matches the rest of the pattern after a
`*`). -/
def starLoop (k : List Char → Bool) : List Char → Bool
  | [] => k []
  | c :: cs => k (c :: cs) || starLoop k cs

/-- Glob matching over character lists, the semantics of
`WildMatch::new(pattern).matches(text)`: `*` matches any (possibly empty)
sequence, `?` matches exactly one character, everything else matches
literally, and the whole text must be consumed. -/
def wildMatchList : List Char → List Char → Bool
  | [], s => s.isEmpty
  | p :: ps, s =>
    if p = '*' then starLoop (wildMatchList ps) s
    else
      match s with
      | [] => false
      | c :: cs => (p == '?' || p == c) && wildMatchList ps cs

/-- `WildMatch::new(pattern).matches(text)` on strings. -/
def wildMatch (pattern_str text : String) : Bool :=
  wildMatchList pattern_str.data text.data

/-- Substring containment on character lists (semantics of Rust
`str::contains(&str)`). -/
def chars_contains : List Char → List Char → Bool
  | [], needle => needle.isEmpty
  | c :: rest, needle => needle.isPrefixOf (c :: rest) || chars_contains rest needle

/-- Rust `haystack.contains(needle)` on strings. -/
def str_contains (haystack needle : String) : Bool :=
  chars_contains haystack.data needle.data

/-- The `ImageHolder` trait: an abstraction over structs that carry an image
reference, used to share code between `Container` and `EphemeralContainer`. -/
class ImageHolder (T : Type) where
  set_image : T → Option String → T
  get_image : T → Option String

/-- `k8s_openapi` `Container`, reduced to the image reference and the opaque
remainder of fields (here the name) that must survive mutation unchanged. -/
structure Container where
  name : String
  image : Option String
  deriving DecidableEq

/-- `k8s_openapi` `EphemeralContainer`, same capability, distinct type. -/
structure EphemeralContainer where
  name : String
  image : Option String
  deriving DecidableEq

instance : ImageHolder Container where
  set_image c image := { c with image := image }
  get_image c := c.image

instance : ImageHolder EphemeralContainer where
  set_image c image := { c with image := image }
  get_image c := c.image

/-- `add_digest_if_not_present`: if the digest is not already contained in
the image reference, set the container's image to `"<reference>@<digest>"`. -/
def add_digest_if_not_present [ImageHolder T] (container_image digest : String)
    (container_with_images_digests : T) : T :=
  if !(str_contains container_image digest) then
    ImageHolder.set_image container_with_images_digests
      (some (container_image ++ "@" ++ digest))
  else
    container_with_images_digests

/-- The error entry appended for one failing (image, cause) pair:
`format!("verification of image {container_image} failed: {e}")`. -/
def verification_error_entry (container_image e : String) : String :=
  "verification of image " ++ container_image ++ " failed: " ++ e

/-- `handle_verification_response`: on `Ok` append the digest to the working
copy of the container, on `Err` push a formatted error entry. Returns the
updated container copy and error list. -/
def handle_verification_response [ImageHolder T] (response : VerifyResult)
    (container_image : String) (container_with_images_digests : T)
    (policy_verification_errors : List String) : T × List String :=
  match response with
  | .ok response =>
      (add_digest_if_not_present container_image response.digest
        container_with_images_digests,
       policy_verification_errors)
  | .error e =>
      (container_with_images_digests,
       policy_verification_errors ++ [verification_error_entry container_image e])

/-- The certificate loop body of the `Signature::Certificate` arm: `response`
holds the last oracle result (initially the internal failure), one oracle
call per certificate, breaking out of the loop at the first failing call.
The `Nat` counts oracle calls made. -/
def certificate_loop_go (call : String → VerifyResult) (response : VerifyResult)
    (count : Nat) : List String → VerifyResult × Nat
  | [] => (response, count)
  | certificate :: rest =>
    match call certificate with
    | .error e => (.error e, count + 1)
    | .ok v => certificate_loop_go call (.ok v) (count + 1) rest

/-- The `Signature::Certificate` arm: start from the internal
`Err(anyhow!("Cannot verify"))` and run the loop over the certificate list. -/
def certificate_loop (call : String → VerifyResult) (certificates : List String) :
    VerifyResult × Nat :=
  certificate_loop_go call (.error "Cannot verify") 0 certificates

/-- The `match signature` dispatch of `verify_container_images`: one oracle
call with kind-specific arguments, except for `Certificate` which runs the
certificate loop. Returns the result and the number of oracle calls made. -/
def dispatch_signature (oracle : Oracle) (container_image : String) :
    Signature → VerifyResult × Nat
  | .PubKeys _ pub_keys annots =>
      (oracle.verify_pub_keys_image container_image pub_keys annots, 1)
  | .Keyless _ keyless annots =>
      (oracle.verify_keyless_exact_match container_image keyless annots, 1)
  | .KeylessPrefix _ keylessPrefix annots =>
      (oracle.verify_keyless_prefix_match container_image keylessPrefix annots, 1)
  | .GithubActions _ owner repo annots =>
      (oracle.verify_keyless_github_actions container_image owner repo annots, 1)
  | .Certificate _ certificates certificate_chain require_rekor_bundle annots =>
      certificate_loop
        (fun certificate =>
          oracle.verify_certificate container_image certificate certificate_chain
            require_rekor_bundle annots)
        certificates

/-- The inner `for signature in signatures` loop of
`verify_container_images`, for one container: skip signatures whose glob
pattern does not match the container's image, dispatch the rest and fold the
response into the working container copy and the error list. -/
def verify_signatures_loop [ImageHolder T] (oracle : Oracle)
    (container_image : String) (container : T)
    (policy_verification_errors : List String) (oracle_calls : Nat) :
    List Signature → T × List String × Nat
  | [] => (container, policy_verification_errors, oracle_calls)
  | signature :: rest =>
    if !(wildMatch (Signature.pattern signature) container_image) then
      verify_signatures_loop oracle container_image container
        policy_verification_errors oracle_calls rest
    else
      let result := dispatch_signature oracle container_image signature
      let handled := handle_verification_response result.1 container_image
        container policy_verification_errors
      verify_signatures_loop oracle container_image handled.1 handled.2
        (oracle_calls + result.2) rest

/-- The outer `for (i, container) in containers` loop of
`verify_container_images`. `container.get_image().unwrap()` panics when the
image is absent, modelled by the `none` result. -/
def verify_containers_loop [ImageHolder T] (oracle : Oracle)
    (signatures : List Signature) :
    List T → List String → Nat → Option (List T × List String × Nat)
  | [], policy_verification_errors, oracle_calls =>
      some ([], policy_verification_errors, oracle_calls)
  | container :: rest, policy_verification_errors, oracle_calls =>
    match ImageHolder.get_image container with
    | none => none
    | some container_image =>
      match verify_signatures_loop oracle container_image container
          policy_verification_errors oracle_calls signatures with
      | (c, errs, calls) =>
        match verify_containers_loop oracle signatures rest errs calls with
        | none => none
        | some (cs, errs2, calls2) => some (c :: cs, errs2, calls2)

/-- `verify_container_images`: run the loops over a copy of the container
list and return `some` of the updated list only when it differs from the
input by full value equality. -/
def verify_container_images [ImageHolder T] [DecidableEq T] (oracle : Oracle)
    (containers : List T) (policy_verification_errors : List String)
    (signatures : List Signature) :
    Option (Option (List T) × List String × Nat) :=
  match verify_containers_loop oracle signatures containers
      policy_verification_errors 0 with
  | none => none
  | some (container_with_images_digests, errs, calls) =>
    if containers ≠ container_with_images_digests then
      some (some container_with_images_digests, errs, calls)
    else
      some (none, errs, calls)

/-- `k8s_openapi` `PodSpec`, reduced to the three container collections the
engine inspects: primary containers, optional init containers, optional
ephemeral containers. -/
structure PodSpec where
  containers : List Container
  init_containers : Option (List Container)
  ephemeral_containers : Option (List EphemeralContainer)
  deriving DecidableEq

/-- The local mutable state of `verify_all_images_in_pod`: the working copy
of the spec, the `is_modified_with_digest` flag, the shared error vector,
plus the oracle call count of the shallow embedding. -/
structure PodScanState where
  spec_images_with_digest : PodSpec
  is_modified_with_digest : Bool
  policy_verification_errors : List String
  oracle_calls : Nat
  deriving DecidableEq

/-- First block of `verify_all_images_in_pod`: scan `spec.containers` and,
when the scan returned an updated list, install it and set the modified
flag. -/
def containers_step (oracle : Oracle) (signatures : List Signature)
    (spec : PodSpec) (st : PodScanState) : Option PodScanState :=
  match verify_container_images oracle spec.containers
      st.policy_verification_errors signatures with
  | none => none
  | some (result, errs, calls) =>
    match result with
    | some containers_with_digest =>
        some { st with
          spec_images_with_digest :=
            { st.spec_images_with_digest with containers := containers_with_digest },
          is_modified_with_digest := true,
          policy_verification_errors := errs,
          oracle_calls := st.oracle_calls + calls }
    | none =>
        some { st with
          policy_verification_errors := errs,
          oracle_calls := st.oracle_calls + calls }

/-- Second block of `verify_all_images_in_pod`: same scan over the init
containers when present. -/
def init_step (oracle : Oracle) (signatures : List Signature) (spec : PodSpec)
    (st : PodScanState) : Option PodScanState :=
  match spec.init_containers with
  | none => some st
  | some init_containers =>
    match verify_container_images oracle init_containers
        st.policy_verification_errors signatures with
    | none => none
    | some (result, errs, calls) =>
      match result with
      | some init_containers_with_digest =>
          some { st with
            spec_images_with_digest :=
              { st.spec_images_with_digest with
                init_containers := some init_containers_with_digest },
            is_modified_with_digest := true,
            policy_verification_errors := errs,
            oracle_calls := st.oracle_calls + calls }
      | none =>
          some { st with
            policy_verification_errors := errs,
            oracle_calls := st.oracle_calls + calls }

/-- Third block of `verify_all_images_in_pod`: same scan over the ephemeral
containers when present. -/
def ephemeral_step (oracle : Oracle) (signatures : List Signature)
    (spec : PodSpec) (st : PodScanState) : Option PodScanState :=
  match spec.ephemeral_containers with
  | none => some st
  | some ephemeral_containers =>
    match verify_container_images oracle ephemeral_containers
        st.policy_verification_errors signatures with
    | none => none
    | some (result, errs, calls) =>
      match result with
      | some ephemeral_containers_with_digest =>
          some { st with
            spec_images_with_digest :=
              { st.spec_images_with_digest with
                ephemeral_containers := some ephemeral_containers_with_digest },
            is_modified_with_digest := true,
            policy_verification_errors := errs,
            oracle_calls := st.oracle_calls + calls }
      | none =>
          some { st with
            policy_verification_errors := errs,
            oracle_calls := st.oracle_calls + calls }

/-- `verify_all_images_in_pod`: scan the three collections in order, then
reject (`Except.error` of the `", "`-joined error list) when any error was
collected, otherwise succeed carrying the updated spec only when some image
was rewritten. The outer `Option` is panic, the `Nat` the oracle calls. -/
def verify_all_images_in_pod (oracle : Oracle) (spec : PodSpec)
    (signatures : List Signature) :
    Option (Except String (Option PodSpec) × Nat) :=
  match containers_step oracle signatures spec
      { spec_images_with_digest := spec, is_modified_with_digest := false,
        policy_verification_errors := [], oracle_calls := 0 } with
  | none => none
  | some st1 =>
    match init_step oracle signatures spec st1 with
    | none => none
    | some st2 =>
      match ephemeral_step oracle signatures spec st2 with
      | none => none
      | some st3 =>
        if st3.policy_verification_errors ≠ [] then
          some (.error
            (String.intercalate ", " st3.policy_verification_errors),
            st3.oracle_calls)
        else if st3.is_modified_with_digest then
          some (.ok (some st3.spec_images_with_digest), st3.oracle_calls)
        else
          some (.ok none, st3.oracle_calls)

/-- `PodTemplateSpec`: the template's optional pod spec (other template
fields are irrelevant to the engine). -/
structure PodTemplateSpec where
  spec : Option PodSpec
  deriving DecidableEq

/-- `DeploymentSpec`: a required pod template. -/
structure DeploymentSpec where
  template : PodTemplateSpec
  deriving DecidableEq

/-- `ReplicaSetSpec`: an optional pod template. -/
structure ReplicaSetSpec where
  template : Option PodTemplateSpec
  deriving DecidableEq

/-- `StatefulSetSpec`: a required pod template. -/
structure StatefulSetSpec where
  template : PodTemplateSpec
  deriving DecidableEq

/-- `DaemonSetSpec`: a required pod template. -/
structure DaemonSetSpec where
  template : PodTemplateSpec
  deriving DecidableEq

/-- `ReplicationControllerSpec`: an optional pod template. -/
structure ReplicationControllerSpec where
  template : Option PodTemplateSpec
  deriving DecidableEq

/-- `JobSpec`: a required pod template. -/
structure JobSpec where
  template : PodTemplateSpec
  deriving DecidableEq

/-- `JobTemplateSpec`: an optional job spec. -/
structure JobTemplateSpec where
  spec : Option JobSpec
  deriving DecidableEq

/-- `CronJobSpec`: a required job template. -/
structure CronJobSpec where
  job_template : JobTemplateSpec
  deriving DecidableEq

/-- The closed set of workload resources this policy validates (the
`ValidatingResource` implementors), each carrying its metadata name and its
kind-specific optional spec. -/
inductive Resource where
  | pod (name : Option String) (spec : Option PodSpec)
  | deployment (name : Option String) (spec : Option DeploymentSpec)
  | replicaSet (name : Option String) (spec : Option ReplicaSetSpec)
  | statefulSet (name : Option String) (spec : Option StatefulSetSpec)
  | daemonSet (name : Option String) (spec : Option DaemonSetSpec)
  | replicationController (name : Option String) (spec : Option ReplicationControllerSpec)
  | job (name : Option String) (spec : Option JobSpec)
  | cronJob (name : Option String) (spec : Option CronJobSpec)
  deriving DecidableEq

/-- `ValidatingResource::name`: `metadata.name.clone().unwrap_or_default()`. -/
def Resource.displayName : Resource → String
  | .pod name _ => name.getD ""
  | .deployment name _ => name.getD ""
  | .replicaSet name _ => name.getD ""
  | .statefulSet name _ => name.getD ""
  | .daemonSet name _ => name.getD ""
  | .replicationController name _ => name.getD ""
  | .job name _ => name.getD ""
  | .cronJob name _ => name.getD ""

/-- `ValidatingResource::spec`: navigate each kind's nesting down to the
optional pod spec, via the same optional hops as the Rust accessors. -/
def Resource.podSpec : Resource → Option PodSpec
  | .pod _ spec => spec
  | .deployment _ spec => spec.bind (fun s => s.template.spec)
  | .replicaSet _ spec => (spec.bind (fun s => s.template)).bind (fun t => t.spec)
  | .statefulSet _ spec => spec.bind (fun s => s.template.spec)
  | .daemonSet _ spec => spec.bind (fun s => s.template.spec)
  | .replicationController _ spec =>
      (spec.bind (fun s => s.template)).bind (fun t => t.spec)
  | .job _ spec => spec.bind (fun s => s.template.spec)
  | .cronJob _ spec =>
      (spec.bind (fun s => s.job_template.spec)).bind (fun j => j.template.spec)

/-- `ValidatingResource::set_spec`: write the pod spec back at the same
nesting; the Rust code unwraps the intermediate options, so an absent
intermediate is a panic, modelled as `none`. -/
def Resource.set_spec : Resource → PodSpec → Option Resource
  | .pod name _, ps => some (.pod name (some ps))
  | .deployment name spec, ps =>
    match spec with
    | none => none
    | some s => some (.deployment name (some { s with template := { s.template with spec := some ps } }))
  | .replicaSet name spec, ps =>
    match spec with
    | none => none
    | some s =>
      match s.template with
      | none => none
      | some t => some (.replicaSet name (some { s with template := some { t with spec := some ps } }))
  | .statefulSet name spec, ps =>
    match spec with
    | none => none
    | some s => some (.statefulSet name (some { s with template := { s.template with spec := some ps } }))
  | .daemonSet name spec, ps =>
    match spec with
    | none => none
    | some s => some (.daemonSet name (some { s with template := { s.template with spec := some ps } }))
  | .replicationController name spec, ps =>
    match spec with
    | none => none
    | some s =>
      match s.template with
      | none => none
      | some t => some (.replicationController name (some { s with template := some { t with spec := some ps } }))
  | .job name spec, ps =>
    match spec with
    | none => none
    | some s => some (.job name (some { s with template := { s.template with spec := some ps } }))
  | .cronJob name spec, ps =>
    match spec with
    | none => none
    | some s =>
      match s.job_template.spec with
      | none => none
      | some js =>
        some (.cronJob name (some { s with job_template := { s.job_template with
          spec := some { js with template := { js.template with spec := some ps } } } }))

/-- The kind string under which each resource shape is addressed by the
admission request. -/
def Resource.kindName : Resource → String
  | .pod .. => "Pod"
  | .deployment .. => "Deployment"
  | .replicaSet .. => "ReplicaSet"
  | .statefulSet .. => "StatefulSet"
  | .daemonSet .. => "DaemonSet"
  | .replicationController .. => "ReplicationController"
  | .job .. => "Job"
  | .cronJob .. => "CronJob"

/-- Modelled from the spec: validated settings (the settings module is not
under `src/`): the ordered policy list and the mutation-enabled flag, as
consumed by `validate_resource`. -/
structure Settings where
  signatures : List Signature
  modify_images_with_digest : Bool
  deriving DecidableEq

/-- The admission request as seen by `validate`: the resource-kind string,
the request payload (already abstracted: `none` when it cannot be decoded
into any supported shape), and the settings. -/
structure ValidationRequest where
  kind : String
  object : Option Resource
  settings : Settings
  deriving DecidableEq

/-- The three admission outcomes: `accept_request`, `mutate_request` carrying
the mutated resource, and `reject_request` carrying the message. -/
inductive Response where
  | accept
  | mutate (mutated : Resource)
  | reject (message : Option String)
  deriving DecidableEq

/-- `serde_json::from_value::<T>`: decoding the payload as the kind being
dispatched succeeds exactly when the payload holds that shape. -/
def decode_object (kind : String) : Option Resource → Option Resource
  | none => none
  | some r => if Resource.kindName r = kind then some r else none

/-- `validate_resource::<T>`: accept on decode failure or absent pod spec;
reject with the formatted message when verification collected errors;
otherwise accept, surfacing the mutated resource only when the mutation flag
is set. The outer `Option` is panic, the `Nat` the oracle calls. -/
def validate_resource (oracle : Oracle) (settings : Settings)
    (decoded : Option Resource) : Option (Response × Nat) :=
  match decoded with
  | none => some (.accept, 0)
  | some resource =>
    match Resource.podSpec resource with
    | none => some (.accept, 0)
    | some spec =>
      match verify_all_images_in_pod oracle spec settings.signatures with
      | none => none
      | some (.error e, calls) =>
          some (.reject (some ("Resource " ++ Resource.displayName resource
            ++ " is not accepted: " ++ e)), calls)
      | some (.ok none, calls) => some (.accept, calls)
      | some (.ok (some changed_spec), calls) =>
        if !settings.modify_images_with_digest then
          some (.accept, calls)
        else
          match Resource.set_spec resource changed_spec with
          | none => none
          | some mutated => some (.mutate mutated, calls)

/-- `validate`: dispatch on the resource-kind string; any kind outside the
supported eight is accepted unchanged. -/
def validate (oracle : Oracle) (req : ValidationRequest) :
    Option (Response × Nat) :=
  match req.kind with
  | "Deployment" => validate_resource oracle req.settings (decode_object "Deployment" req.object)
  | "ReplicaSet" => validate_resource oracle req.settings (decode_object "ReplicaSet" req.object)
  | "StatefulSet" => validate_resource oracle req.settings (decode_object "StatefulSet" req.object)
  | "DaemonSet" => validate_resource oracle req.settings (decode_object "DaemonSet" req.object)
  | "ReplicationController" => validate_resource oracle req.settings (decode_object "ReplicationController" req.object)
  | "Job" => validate_resource oracle req.settings (decode_object "Job" req.object)
  | "CronJob" => validate_resource oracle req.settings (decode_object "CronJob" req.object)
  | "Pod" => validate_resource oracle req.settings (decode_object "Pod" req.object)
  | _ => some (.accept, 0)

/-- Whether a verification result is a failure. -/
def isErr : VerifyResult → Bool
  | .error _ => true
  | .ok _ => false

/-- Written from the spec's words (result-aggregator contract): the failure
entries one image contributes, one per matching policy whose dispatch fails,
in policy order. -/
def spec_policy_failures (oracle : Oracle) (container_image : String)
    (signatures : List Signature) : List String :=
  signatures.filterMap (fun signature =>
    if wildMatch (Signature.pattern signature) container_image then
      match (dispatch_signature oracle container_image signature).1 with
      | .error e => some (verification_error_entry container_image e)
      | .ok _ => none
    else none)

/-- Written from the spec's words: the failure entries of one container
collection, in container-then-policy order. -/
def spec_container_failures [ImageHolder T] (oracle : Oracle)
    (signatures : List Signature) (containers : List T) : List String :=
  (containers.map (fun container =>
    match ImageHolder.get_image container with
    | some img => spec_policy_failures oracle img signatures
    | none => [])).flatten

/-- Written from the spec's words: all failure entries of a pod spec, in
encounter order: primary containers first, then init, then ephemeral. -/
def spec_pod_failures (oracle : Oracle) (signatures : List Signature)
    (spec : PodSpec) : List String :=
  spec_container_failures oracle signatures spec.containers
  ++ (match spec.init_containers with
      | some ics => spec_container_failures oracle signatures ics
      | none => [])
  ++ (match spec.ephemeral_containers with
      | some ecs => spec_container_failures oracle signatures ecs
      | none => [])

/-- A policy matches the image and its dispatch fails. -/
def sig_fails_on (oracle : Oracle) (container_image : String)
    (signature : Signature) : Prop :=
  wildMatch (Signature.pattern signature) container_image = true ∧
    isErr (dispatch_signature oracle container_image signature).1 = true

/-- Some configured policy matches the image and fails on it. -/
def image_fails (oracle : Oracle) (signatures : List Signature)
    (container_image : String) : Prop :=
  ∃ signature ∈ signatures, sig_fails_on oracle container_image signature

/-- Some (container, matching policy) pair anywhere in the pod spec fails
verification. -/
def pod_has_failing_pair (oracle : Oracle) (signatures : List Signature)
    (spec : PodSpec) : Prop :=
  (∃ c ∈ spec.containers, ∃ img, ImageHolder.get_image c = some img ∧
      image_fails oracle signatures img)
  ∨ (∃ ics, spec.init_containers = some ics ∧ ∃ c ∈ ics, ∃ img,
      ImageHolder.get_image c = some img ∧ image_fails oracle signatures img)
  ∨ (∃ ecs, spec.ephemeral_containers = some ecs ∧ ∃ c ∈ ecs, ∃ img,
      ImageHolder.get_image c = some img ∧ image_fails oracle signatures img)

/-- Invariant of the pod scan: once the modified flag is set, the working
copy differs from the original spec. -/
def scan_inv (spec : PodSpec) (st : PodScanState) : Prop :=
  st.is_modified_with_digest = true → st.spec_images_with_digest ≠ spec

/-- A deterministic substitute for the oracle: public keys always verify
with the fixed digest `sha256:aa`, keyless always fails with cause
`keyless rejected`, and certificates verify exactly when the certificate is
`good-cert`. -/
def fixture_oracle : Oracle where
  verify_pub_keys_image := fun _ _ _ =>
    .ok { is_trusted := true, digest := "sha256:aa" }
  verify_keyless_exact_match := fun _ _ _ => .error "keyless rejected"
  verify_keyless_prefix_match := fun _ _ _ => .error "not checked"
  verify_keyless_github_actions := fun _ _ _ _ => .error "not checked"
  verify_certificate := fun _ certificate _ _ _ =>
    if certificate = "good-cert" then .ok { is_trusted := true, digest := "sha256:aa" }
    else .error "not good-cert"

/-- A pod spec with a single primary container. -/
def simple_pod_spec (img : Option String) : PodSpec :=
  { containers := [{ name := "app", image := img }],
    init_containers := none, ephemeral_containers := none }

/-- A bare pod resource with a single primary container. -/
def simple_pod (name : String) (img : Option String) : Resource :=
  .pod (some name) (some (simple_pod_spec img))

/-- A pod spec with one primary container and one init container. -/
def two_collection_pod_spec : PodSpec :=
  { containers := [{ name := "nginx", image := some "nginx" }],
    init_containers := some [{ name := "init", image := some "init" }],
    ephemeral_containers := none }

/-- The bare pod resource wrapping `two_collection_pod_spec`. -/
def two_collection_pod : Resource := .pod (some "p") (some two_collection_pod_spec)

theorem isPrefixOf_self (l : List Char) : l.isPrefixOf l = true := by
  induction l with
  | nil => rfl
  | cons c cs ih => simp [List.isPrefixOf, ih]

theorem chars_contains_suffix (a b : List Char) : chars_contains (a ++ b) b = true := by
  induction a with
  | nil =>
    cases b with
    | nil => rfl
    | cons c cs => simp [chars_contains, isPrefixOf_self]
  | cons x xs ih => simp [chars_contains, ih]

theorem str_contains_append (x y : String) : str_contains (x ++ y) y = true := by
  simpa [str_contains, String.data_append] using chars_contains_suffix x.data y.data

theorem starLoop_eq_true_iff (k : List Char → Bool) (s : List Char) :
    starLoop k s = true ↔ ∃ s1 s2, s = s1 ++ s2 ∧ k s2 = true := by
  induction s with
  | nil =>
    constructor
    · intro h; exact ⟨[], [], rfl, h⟩
    · rintro ⟨s1, s2, hs, hk⟩
      obtain ⟨h1, h2⟩ := List.append_eq_nil.mp hs.symm
      subst h2; exact hk
  | cons c cs ih =>
    constructor
    · intro h
      rcases Bool.or_eq_true_iff.mp h with h1 | h2
      · exact ⟨[], c :: cs, rfl, h1⟩
      · obtain ⟨s1, s2, hs, hk⟩ := ih.mp h2
        exact ⟨c :: s1, s2, by rw [hs]; rfl, hk⟩
    · rintro ⟨s1, s2, hs, hk⟩
      cases s1 with
      | nil =>
        simp only [List.nil_append] at hs
        subst hs
        exact Bool.or_eq_true_iff.mpr (Or.inl hk)
      | cons x s1' =>
        simp only [List.cons_append, List.cons.injEq] at hs
        obtain ⟨hx, hcs⟩ := hs
        exact Bool.or_eq_true_iff.mpr (Or.inr (ih.mpr ⟨s1', s2, hcs, hk⟩))

theorem wildMatchList_star (ps s : List Char) :
    wildMatchList ('*' :: ps) s = true ↔
      ∃ s1 s2, s = s1 ++ s2 ∧ wildMatchList ps s2 = true := by
  have : wildMatchList ('*' :: ps) s = starLoop (wildMatchList ps) s := by
    simp [wildMatchList]
  rw [this]
  exact starLoop_eq_true_iff _ _

theorem wildMatchList_literal (p : List Char)
    (hp : ∀ c ∈ p, c ≠ '*' ∧ c ≠ '?') (s : List Char) :
    (wildMatchList p s = true ↔ p = s) := by
  induction p generalizing s with
  | nil => cases s <;> simp [wildMatchList]
  | cons x xs ih =>
    obtain ⟨hx_star, hx_q⟩ := hp x (List.mem_cons_self x xs)
    have hrest : ∀ c ∈ xs, c ≠ '*' ∧ c ≠ '?' :=
      fun c hc => hp c (List.mem_cons_of_mem _ hc)
    cases s with
    | nil => simp [wildMatchList, hx_star]
    | cons c cs =>
      simp only [wildMatchList, if_neg hx_star]
      rw [Bool.and_eq_true, Bool.or_eq_true]
      simp only [beq_iff_eq, hx_q, false_or]
      rw [ih hrest cs]
      constructor
      · rintro ⟨h1, h2⟩; rw [h1, h2]
      · intro h
        injection h with h1 h2
        exact ⟨h1, h2⟩

theorem verify_signatures_loop_errs [ImageHolder T] (oracle : Oracle)
    (img : String) (sigs : List Signature) (c : T) (errs : List String) (n : Nat) :
    (verify_signatures_loop oracle img c errs n sigs).2.1 =
      errs ++ spec_policy_failures oracle img sigs := by
  induction sigs generalizing c errs n with
  | nil => simp [verify_signatures_loop, spec_policy_failures]
  | cons sg rest ih =>
    by_cases hm : wildMatch (Signature.pattern sg) img
    · cases hr : (dispatch_signature oracle img sg).1 with
      | ok v =>
        simp [verify_signatures_loop, hm, handle_verification_response, hr, ih,
          spec_policy_failures, List.filterMap_cons]
      | error e =>
        simp [verify_signatures_loop, hm, handle_verification_response, hr, ih,
          spec_policy_failures, List.filterMap_cons]
    · simp [verify_signatures_loop, hm, ih, spec_policy_failures,
        List.filterMap_cons]

theorem verify_signatures_loop_effects_const [ImageHolder T] (oracle : Oracle)
    (img : String) (sigs : List Signature) (c c2 : T) (errs : List String) (n : Nat) :
    (verify_signatures_loop oracle img c errs n sigs).2 =
      (verify_signatures_loop oracle img c2 errs n sigs).2 := by
  induction sigs generalizing c c2 errs n with
  | nil => simp [verify_signatures_loop]
  | cons sg rest ih =>
    by_cases hm : wildMatch (Signature.pattern sg) img
    · cases hr : (dispatch_signature oracle img sg).1 with
      | ok v =>
        simp only [verify_signatures_loop, hm, Bool.not_true, if_neg,
          Bool.false_eq_true, not_false_eq_true, handle_verification_response, hr]
        exact ih _ _ _ _
      | error e =>
        simp only [verify_signatures_loop, hm, Bool.not_true, if_neg,
          Bool.false_eq_true, not_false_eq_true, handle_verification_response, hr]
        exact ih _ _ _ _
    · simp only [verify_signatures_loop, hm]
      simp only [Bool.not_false, if_pos]
      exact ih _ _ _ _

theorem verify_containers_loop_errs [ImageHolder T] (oracle : Oracle)
    (sigs : List Signature) (cs : List T) (errs : List String) (n : Nat)
    (out : List T) (errs2 : List String) (n2 : Nat)
    (h : verify_containers_loop oracle sigs cs errs n = some (out, errs2, n2)) :
    errs2 = errs ++ spec_container_failures oracle sigs cs := by
  induction cs generalizing errs n out errs2 n2 with
  | nil =>
    simp only [verify_containers_loop, Option.some.injEq, Prod.mk.injEq] at h
    obtain ⟨-, h2, -⟩ := h
    simp [spec_container_failures, ← h2]
  | cons c rest ih =>
    simp only [verify_containers_loop] at h
    split at h
    · exact absurd h (by simp)
    · rename_i img hi
      split at h
      · exact absurd h (by simp)
      · rename_i r cs3 errs3 n3 hrec
        simp only [Option.some.injEq, Prod.mk.injEq] at h
        obtain ⟨-, h2, -⟩ := h
        have hee := verify_signatures_loop_errs oracle img sigs c errs n
        have h3 := ih _ _ cs3 errs3 n3 hrec
        rw [← h2, h3, hee]
        simp [spec_container_failures, hi, List.append_assoc]

theorem verify_container_images_errs [ImageHolder T] [DecidableEq T]
    (oracle : Oracle) (cs : List T) (errs : List String) (sigs : List Signature)
    (res : Option (List T)) (errs2 : List String) (n2 : Nat)
    (h : verify_container_images oracle cs errs sigs = some (res, errs2, n2)) :
    errs2 = errs ++ spec_container_failures oracle sigs cs := by
  simp only [verify_container_images] at h
  split at h
  · exact absurd h (by simp)
  · rename_i r out ee kk hl
    have hee := verify_containers_loop_errs oracle sigs cs errs 0 out ee kk hl
    split at h
    · simp only [Option.some.injEq, Prod.mk.injEq] at h
      obtain ⟨-, h2, -⟩ := h
      rw [← h2]; exact hee
    · simp only [Option.some.injEq, Prod.mk.injEq] at h
      obtain ⟨-, h2, -⟩ := h
      rw [← h2]; exact hee

theorem containers_step_errs (oracle : Oracle) (signatures : List Signature)
    (spec : PodSpec) (st st2 : PodScanState)
    (h : containers_step oracle signatures spec st = some st2) :
    st2.policy_verification_errors = st.policy_verification_errors ++
      spec_container_failures oracle signatures spec.containers := by
  simp only [containers_step] at h
  split at h
  · exact absurd h (by simp)
  · rename_i r result errs calls hv
    have hee := verify_container_images_errs oracle spec.containers
      st.policy_verification_errors signatures result errs calls hv
    split at h <;>
      (simp only [Option.some.injEq] at h; rw [← h]; exact hee)

theorem init_step_errs (oracle : Oracle) (signatures : List Signature)
    (spec : PodSpec) (st st2 : PodScanState)
    (h : init_step oracle signatures spec st = some st2) :
    st2.policy_verification_errors = st.policy_verification_errors ++
      (match spec.init_containers with
        | some ics => spec_container_failures oracle signatures ics
        | none => []) := by
  simp only [init_step] at h
  split at h
  · rename_i hni
    simp only [Option.some.injEq] at h
    rw [← h, hni]
    simp
  · rename_i ics hni
    split at h
    · exact absurd h (by simp)
    · rename_i r result errs calls hv
      have hee := verify_container_images_errs oracle ics
        st.policy_verification_errors signatures result errs calls hv
      rw [hni]
      split at h <;>
        (simp only [Option.some.injEq] at h; rw [← h]; exact hee)

theorem ephemeral_step_errs (oracle : Oracle) (signatures : List Signature)
    (spec : PodSpec) (st st2 : PodScanState)
    (h : ephemeral_step oracle signatures spec st = some st2) :
    st2.policy_verification_errors = st.policy_verification_errors ++
      (match spec.ephemeral_containers with
        | some ecs => spec_container_failures oracle signatures ecs
        | none => []) := by
  simp only [ephemeral_step] at h
  split at h
  · rename_i hne
    simp only [Option.some.injEq] at h
    rw [← h, hne]
    simp
  · rename_i ecs hne
    split at h
    · exact absurd h (by simp)
    · rename_i r result errs calls hv
      have hee := verify_container_images_errs oracle ecs
        st.policy_verification_errors signatures result errs calls hv
      rw [hne]
      split at h <;>
        (simp only [Option.some.injEq] at h; rw [← h]; exact hee)

theorem verify_all_images_in_pod_chars (oracle : Oracle) (spec : PodSpec)
    (signatures : List Signature) (res : Except String (Option PodSpec)) (n : Nat)
    (h : verify_all_images_in_pod oracle spec signatures = some (res, n)) :
    (spec_pod_failures oracle signatures spec ≠ [] →
      res = .error (String.intercalate ", " (spec_pod_failures oracle signatures spec))) ∧
    (spec_pod_failures oracle signatures spec = [] → ∃ o, res = .ok o) := by
  simp only [verify_all_images_in_pod] at h
  split at h
  · exact absurd h (by simp)
  · rename_i st1 h1
    split at h
    · exact absurd h (by simp)
    · rename_i st2 h2
      split at h
      · exact absurd h (by simp)
      · rename_i st3 h3
        have e1 := containers_step_errs oracle signatures spec _ _ h1
        have e2 := init_step_errs oracle signatures spec _ _ h2
        have e3 := ephemeral_step_errs oracle signatures spec _ _ h3
        have hfin : st3.policy_verification_errors =
            spec_pod_failures oracle signatures spec := by
          rw [e3, e2, e1]
          simp [spec_pod_failures, List.append_assoc]
        split at h
        · rename_i hnn
          simp only [Option.some.injEq, Prod.mk.injEq] at h
          obtain ⟨hres, -⟩ := h
          rw [hfin] at hnn
          constructor
          · intro _
            rw [← hres, hfin]
          · intro hc
            exact absurd hc hnn
        · rename_i hnn
          rw [hfin] at hnn
          push_neg at hnn
          constructor
          · intro hc
            exact absurd hnn hc
          · intro _
            split at h <;>
              (simp only [Option.some.injEq, Prod.mk.injEq] at h;
               obtain ⟨hres, -⟩ := h;
               exact ⟨_, hres.symm⟩)

theorem spec_policy_failures_ne_nil (oracle : Oracle) (img : String)
    (sigs : List Signature) (h : image_fails oracle sigs img) :
    spec_policy_failures oracle img sigs ≠ [] := by
  obtain ⟨sg, hmem, hmatch, herr⟩ := h
  intro hnil
  rw [spec_policy_failures, List.filterMap_eq_nil_iff] at hnil
  have hthis := hnil sg hmem
  rw [if_pos hmatch] at hthis
  cases hd : (dispatch_signature oracle img sg).1 with
  | ok v => rw [hd] at herr; simp [isErr] at herr
  | error e => rw [hd] at hthis; simp at hthis

theorem spec_container_failures_ne_nil [ImageHolder T] (oracle : Oracle)
    (sigs : List Signature) (cs : List T) (c : T) (img : String)
    (hc : c ∈ cs) (hi : ImageHolder.get_image c = some img)
    (hf : image_fails oracle sigs img) :
    spec_container_failures oracle sigs cs ≠ [] := by
  intro hnil
  rw [spec_container_failures, List.flatten_eq_nil_iff] at hnil
  have hthis := hnil _ (List.mem_map_of_mem _ hc)
  simp only [hi] at hthis
  exact spec_policy_failures_ne_nil oracle img sigs hf hthis

theorem pod_failing_pair_ne_nil (oracle : Oracle) (sigs : List Signature)
    (spec : PodSpec) (h : pod_has_failing_pair oracle sigs spec) :
    spec_pod_failures oracle sigs spec ≠ [] := by
  rw [spec_pod_failures]
  rcases h with ⟨c, hc, img, hi, hf⟩ | ⟨ics, hics, c, hc, img, hi, hf⟩ |
    ⟨ecs, hecs, c, hc, img, hi, hf⟩
  · have := spec_container_failures_ne_nil oracle sigs spec.containers c img hc hi hf
    simp [this]
  · have := spec_container_failures_ne_nil oracle sigs ics c img hc hi hf
    rw [hics]
    simp [this]
  · have := spec_container_failures_ne_nil oracle sigs ecs c img hc hi hf
    rw [hecs]
    simp [this]

theorem verify_container_images_some_ne [ImageHolder T] [DecidableEq T]
    (oracle : Oracle) (cs : List T) (errs : List String) (sigs : List Signature)
    (out : List T) (errs2 : List String) (n2 : Nat)
    (h : verify_container_images oracle cs errs sigs = some (some out, errs2, n2)) :
    out ≠ cs := by
  simp only [verify_container_images] at h
  split at h
  · exact absurd h (by simp)
  · rename_i r o ee kk hl
    split at h
    · rename_i hne
      simp only [Option.some.injEq, Prod.mk.injEq] at h
      obtain ⟨ho, -⟩ := h
      rw [← ho]
      exact fun hq => hne hq.symm
    · simp at h

theorem containers_step_inv (oracle : Oracle) (sigs : List Signature)
    (spec : PodSpec) (st st2 : PodScanState)
    (h : containers_step oracle sigs spec st = some st2)
    (hinv : scan_inv spec st) : scan_inv spec st2 := by
  simp only [containers_step] at h
  split at h
  · exact absurd h (by simp)
  · rename_i r result errs calls hv
    split at h
    · rename_i out
      simp only [Option.some.injEq] at h
      have hne := verify_container_images_some_ne oracle spec.containers
        st.policy_verification_errors sigs out errs calls (by rw [hv])
      intro _
      rw [← h]
      intro heq
      exact hne (congrArg PodSpec.containers heq)
    · simp only [Option.some.injEq] at h
      intro hm
      rw [← h] at hm ⊢
      exact hinv hm

theorem init_step_inv (oracle : Oracle) (sigs : List Signature)
    (spec : PodSpec) (st st2 : PodScanState)
    (h : init_step oracle sigs spec st = some st2)
    (hinv : scan_inv spec st) : scan_inv spec st2 := by
  simp only [init_step] at h
  split at h
  · simp only [Option.some.injEq] at h
    rw [← h]
    exact hinv
  · rename_i ics hics
    split at h
    · exact absurd h (by simp)
    · rename_i r result errs calls hv
      split at h
      · rename_i out
        simp only [Option.some.injEq] at h
        have hne := verify_container_images_some_ne oracle ics
          st.policy_verification_errors sigs out errs calls (by rw [hv])
        intro _
        rw [← h]
        intro heq
        have : PodSpec.init_containers spec = some out := by
          rw [← heq]
        rw [hics] at this
        simp only [Option.some.injEq] at this
        exact hne this.symm
      · simp only [Option.some.injEq] at h
        intro hm
        rw [← h] at hm ⊢
        exact hinv hm

theorem ephemeral_step_inv (oracle : Oracle) (sigs : List Signature)
    (spec : PodSpec) (st st2 : PodScanState)
    (h : ephemeral_step oracle sigs spec st = some st2)
    (hinv : scan_inv spec st) : scan_inv spec st2 := by
  simp only [ephemeral_step] at h
  split at h
  · simp only [Option.some.injEq] at h
    rw [← h]
    exact hinv
  · rename_i ecs hecs
    split at h
    · exact absurd h (by simp)
    · rename_i r result errs calls hv
      split at h
      · rename_i out
        simp only [Option.some.injEq] at h
        have hne := verify_container_images_some_ne oracle ecs
          st.policy_verification_errors sigs out errs calls (by rw [hv])
        intro _
        rw [← h]
        intro heq
        have : PodSpec.ephemeral_containers spec = some out := by
          rw [← heq]
        rw [hecs] at this
        simp only [Option.some.injEq] at this
        exact hne this.symm
      · simp only [Option.some.injEq] at h
        intro hm
        rw [← h] at hm ⊢
        exact hinv hm

theorem verify_all_ok_some_ne (oracle : Oracle) (spec : PodSpec)
    (sigs : List Signature) (changed : PodSpec) (n : Nat)
    (h : verify_all_images_in_pod oracle spec sigs = some (.ok (some changed), n)) :
    changed ≠ spec := by
  simp only [verify_all_images_in_pod] at h
  split at h
  · exact absurd h (by simp)
  · rename_i st1 h1
    split at h
    · exact absurd h (by simp)
    · rename_i st2 h2
      split at h
      · exact absurd h (by simp)
      · rename_i st3 h3
        have hinv0 : scan_inv spec
            { spec_images_with_digest := spec, is_modified_with_digest := false,
              policy_verification_errors := [], oracle_calls := 0 } := by
          intro hm
          simp at hm
        have hinv := ephemeral_step_inv oracle sigs spec _ _ h3
          (init_step_inv oracle sigs spec _ _ h2
            (containers_step_inv oracle sigs spec _ _ h1 hinv0))
        split at h
        · simp at h
        · split at h
          · rename_i hmod
            simp only [Option.some.injEq, Prod.mk.injEq, Except.ok.injEq,
              Option.some.injEq] at h
            obtain ⟨hres, -⟩ := h
            rw [← hres]
            exact hinv hmod
          · simp at h

theorem set_spec_total (r : Resource) (spec0 : PodSpec)
    (h : Resource.podSpec r = some spec0) (ps : PodSpec) :
    ∃ r2, Resource.set_spec r ps = some r2 := by
  cases r with
  | pod name s => exact ⟨_, rfl⟩
  | deployment name s =>
    cases s with
    | none => simp [Resource.podSpec] at h
    | some ds => exact ⟨_, rfl⟩
  | replicaSet name s =>
    cases s with
    | none => simp [Resource.podSpec] at h
    | some rs =>
      cases ht : rs.template with
      | none => simp [Resource.podSpec, ht] at h
      | some t =>
        exact ⟨.replicaSet name (some { rs with template := some { t with spec := some ps } }),
          by simp [Resource.set_spec, ht]⟩
  | statefulSet name s =>
    cases s with
    | none => simp [Resource.podSpec] at h
    | some ss => exact ⟨_, rfl⟩
  | daemonSet name s =>
    cases s with
    | none => simp [Resource.podSpec] at h
    | some ds => exact ⟨_, rfl⟩
  | replicationController name s =>
    cases s with
    | none => simp [Resource.podSpec] at h
    | some rc =>
      cases ht : rc.template with
      | none => simp [Resource.podSpec, ht] at h
      | some t =>
        exact ⟨.replicationController name (some { rc with template := some { t with spec := some ps } }),
          by simp [Resource.set_spec, ht]⟩
  | job name s =>
    cases s with
    | none => simp [Resource.podSpec] at h
    | some js => exact ⟨_, rfl⟩
  | cronJob name s =>
    cases s with
    | none => simp [Resource.podSpec] at h
    | some cjs =>
      cases hjt : cjs.job_template.spec with
      | none => simp [Resource.podSpec, hjt] at h
      | some js =>
        exact ⟨.cronJob name (some { cjs with job_template := { cjs.job_template with
            spec := some { js with template := { js.template with spec := some ps } } } }),
          by simp [Resource.set_spec, hjt]⟩

theorem validate_resource_reject_message (oracle : Oracle) (settings : Settings) (r : Resource)
    (spec : PodSpec) (resp : Response) (n : Nat)
    (hspec : Resource.podSpec r = some spec)
    (hne : spec_pod_failures oracle settings.signatures spec ≠ [])
    (hrun : validate_resource oracle settings (some r) = some (resp, n)) :
    resp = Response.reject (some ("Resource " ++ Resource.displayName r
      ++ " is not accepted: " ++ String.intercalate ", "
        (spec_pod_failures oracle settings.signatures spec))) := by
  simp only [validate_resource, hspec] at hrun
  cases hv : verify_all_images_in_pod oracle spec settings.signatures with
  | none => rw [hv] at hrun; exact absurd hrun (by simp)
  | some p =>
    rcases p with ⟨res, k⟩
    have hchar := (verify_all_images_in_pod_chars oracle spec
      settings.signatures res k hv).1 hne
    rw [hv, hchar] at hrun
    simp only [Option.some.injEq, Prod.mk.injEq] at hrun
    obtain ⟨h1, -⟩ := hrun
    exact h1.symm

/-- C1: if any (container, matching policy) pair anywhere in the pod spec
(across primary, init and ephemeral containers) fails verification, the
overall admission result is reject: matching policies are combined with
logical AND, and a single failing policy for a single container fails the
whole request even when every other container and policy succeeds. -/
theorem claim_C1 (oracle : Oracle) (settings : Settings) (r : Resource)
    (spec : PodSpec) (resp : Response) (n : Nat)
    (hspec : Resource.podSpec r = some spec)
    (hfail : pod_has_failing_pair oracle settings.signatures spec)
    (hrun : validate_resource oracle settings (some r) = some (resp, n)) :
    ∃ msg, resp = Response.reject msg := by
  have hne := pod_failing_pair_ne_nil oracle settings.signatures spec hfail
  exact ⟨_, validate_resource_reject_message oracle settings r spec resp n hspec hne hrun⟩

/-- Witness for C1: a concrete pod whose single container is matched by one
failing keyless policy is rejected. -/
theorem claim_C1_witness :
    ∃ msg,
      Response.reject (some ("Resource nginx is not accepted: "
        ++ "verification of image nginx failed: keyless rejected")) =
        Response.reject msg := by
  refine claim_C1 fixture_oracle
    { signatures := [Signature.Keyless "nginx" [] none],
      modify_images_with_digest := true }
    (simple_pod "nginx" (some "nginx")) (simple_pod_spec (some "nginx")) _ 1
    rfl ?_ (by decide)
  refine Or.inl ⟨{ name := "app", image := some "nginx" }, ?_, "nginx", rfl,
    Signature.Keyless "nginx" [] none, ?_, ?_, ?_⟩
  · simp [simple_pod_spec]
  · simp
  · decide
  · rfl

theorem certificate_loop_go_first_fail (call : String → VerifyResult)
    (pre : List String) (c : String) (rest : List String)
    (hok : ∀ p ∈ pre, isErr (call p) = false) (herr : isErr (call c) = true)
    (resp : VerifyResult) (n : Nat) :
    certificate_loop_go call resp n (pre ++ c :: rest) = (call c, n + pre.length + 1) := by
  induction pre generalizing resp n with
  | nil =>
    simp only [List.nil_append, certificate_loop_go]
    cases hc : call c with
    | error e => simp
    | ok v => rw [hc] at herr; simp [isErr] at herr
  | cons p pre2 ih =>
    have hp := hok p (List.mem_cons_self p pre2)
    simp only [List.cons_append, certificate_loop_go]
    cases hc : call p with
    | error e => rw [hc] at hp; simp [isErr] at hp
    | ok v =>
      have h2 := ih (fun q hq => hok q (List.mem_cons_of_mem _ hq)) (.ok v) (n + 1)
      have h3 : n + 1 + pre2.length + 1 = n + (p :: pre2).length + 1 := by
        simp only [List.length_cons]
        omega
      rw [h3] at h2
      exact h2

theorem certificate_loop_go_count (call : String → VerifyResult)
    (certs : List String) (hok : ∀ c ∈ certs, isErr (call c) = false)
    (resp : VerifyResult) (n : Nat) :
    (certificate_loop_go call resp n certs).2 = n + certs.length := by
  induction certs generalizing resp n with
  | nil => simp [certificate_loop_go]
  | cons c rest ih =>
    have hc := hok c (List.mem_cons_self c rest)
    simp only [certificate_loop_go]
    cases hcc : call c with
    | error e => rw [hcc] at hc; simp [isErr] at hc
    | ok v =>
      have h2 := ih (fun q hq => hok q (List.mem_cons_of_mem _ hq)) (.ok v) (n + 1)
      have h3 : n + 1 + rest.length = n + (c :: rest).length := by
        simp only [List.length_cons]
        omega
      rw [h3] at h2
      exact h2

/-- C2: the certificate arm calls the oracle once per certificate in list
order and stops at the first failing call, propagating that failing result;
an empty certificate list yields the fixed internal "Cannot verify" failure
with no oracle call; and in the concrete two-certificate scenario where only
"good-cert" passes, the oracle is called exactly twice and the request is
rejected. -/
theorem claim_C2 :
    (∀ call : String → VerifyResult,
      certificate_loop call [] = (.error "Cannot verify", 0)) ∧
    (∀ (call : String → VerifyResult) (pre : List String) (c : String)
       (rest : List String),
      (∀ p ∈ pre, isErr (call p) = false) → isErr (call c) = true →
      certificate_loop call (pre ++ c :: rest) = (call c, pre.length + 1)) ∧
    (∀ (call : String → VerifyResult) (certs : List String),
      (∀ c ∈ certs, isErr (call c) = false) →
      (certificate_loop call certs).2 = certs.length) ∧
    validate fixture_oracle
      { kind := "Pod",
        object := some (simple_pod "nginx" (some "registry.io/app:v1")),
        settings :=
          { signatures := [Signature.Certificate "registry.io/app:*"
              ["good-cert", "bad-cert"] none true none],
            modify_images_with_digest := true } } =
      some (.reject (some ("Resource nginx is not accepted: "
        ++ "verification of image registry.io/app:v1 failed: not good-cert")), 2) := by
  refine ⟨fun call => rfl, ?_, ?_, by decide⟩
  · intro call pre c rest hok herr
    have h := certificate_loop_go_first_fail call pre c rest hok herr
      (.error "Cannot verify") 0
    rw [certificate_loop, h]
    simp
  · intro call certs hok
    have h := certificate_loop_go_count call certs hok (.error "Cannot verify") 0
    rw [certificate_loop, h]
    simp

/-- Witness for C2: a two-certificate loop where the first certificate
passes and the second fails makes exactly two calls and returns the failing
result. -/
theorem claim_C2_witness :
    certificate_loop
      (fun c => if c = "good-cert"
        then (.ok { is_trusted := true, digest := "d" } : VerifyResult)
        else .error "bad")
      ["good-cert", "bad-cert"] = (.error "bad", 2) := by
  have h := claim_C2.2.1
    (fun c => if c = "good-cert"
      then (.ok { is_trusted := true, digest := "d" } : VerifyResult)
      else .error "bad")
    ["good-cert"] "bad-cert" [] (by decide) (by decide)
  exact h

/-- C3 (code bug): processing a pod whose container has no image reference
panics through `Option::unwrap` (the `none` result of the embedding) instead
of producing a well-formed accept/reject decision. -/
theorem claim_C3 :
    validate fixture_oracle
      { kind := "Pod", object := some (simple_pod "p" none),
        settings :=
          { signatures := [Signature.PubKeys "*" ["key"] none],
            modify_images_with_digest := true } } = none := by
  decide

/-- C4: a successful oracle response is handled purely on the strength of
being `Ok`: the digest is appended, no error is contributed, and the
`is_trusted` flag is never inspected (flipping it changes nothing). -/
theorem claim_C4 (T : Type) [_inst : ImageHolder T] (resp : VerificationResponse)
    (container_image : String) (c : T) (errs : List String) :
    handle_verification_response (.ok resp) container_image c errs =
      (add_digest_if_not_present container_image resp.digest c, errs) ∧
    handle_verification_response
        (.ok { is_trusted := false, digest := resp.digest }) container_image c errs =
      handle_verification_response
        (.ok { is_trusted := true, digest := resp.digest }) container_image c errs := by
  exact ⟨rfl, rfl⟩

/-- C5: when every verification succeeded, the response carries a mutated
resource iff the mutation flag is set and some container list actually
changed from its original value (detected by full value equality); with the
flag unset the result is a plain accept even though the mutated spec was
computed internally. -/
theorem claim_C5 (oracle : Oracle) (settings : Settings) (r : Resource)
    (spec : PodSpec) (res : Option PodSpec) (n : Nat)
    (hspec : Resource.podSpec r = some spec)
    (hok : verify_all_images_in_pod oracle spec settings.signatures =
      some (.ok res, n)) :
    (settings.modify_images_with_digest = false →
      validate_resource oracle settings (some r) = some (.accept, n)) ∧
    ((∃ m k, validate_resource oracle settings (some r) = some (.mutate m, k)) ↔
      (settings.modify_images_with_digest = true ∧ ∃ cs, res = some cs)) ∧
    (∀ cs, res = some cs → cs ≠ spec) := by
  refine ⟨?_, ⟨?_, ?_⟩, ?_⟩
  · intro hflag
    cases res with
    | none => simp [validate_resource, hspec, hok]
    | some cs => simp [validate_resource, hspec, hok, hflag]
  · rintro ⟨m, k, hm⟩
    simp only [validate_resource, hspec, hok] at hm
    cases res with
    | none => simp at hm
    | some cs =>
      by_cases hflag : settings.modify_images_with_digest = true
      · exact ⟨hflag, cs, rfl⟩
      · rw [Bool.not_eq_true] at hflag
        simp [hflag] at hm
  · rintro ⟨hflag, cs, hres⟩
    subst hres
    obtain ⟨r2, hr2⟩ := set_spec_total r spec hspec cs
    refine ⟨r2, n, ?_⟩
    simp [validate_resource, hspec, hok, hflag, hr2]
  · intro cs hres
    subst hres
    exact verify_all_ok_some_ne oracle spec settings.signatures cs n hok

/-- Witness for C5: a concrete successful verification with the mutation
flag unset is accepted without a mutated object. -/
theorem claim_C5_witness :
    validate_resource fixture_oracle
      { signatures := [Signature.PubKeys "registry.io/app:*" ["key"] none],
        modify_images_with_digest := false }
      (some (simple_pod "nginx" (some "registry.io/app:v1"))) =
      some (.accept, 1) := by
  have h := (claim_C5 fixture_oracle
    { signatures := [Signature.PubKeys "registry.io/app:*" ["key"] none],
      modify_images_with_digest := false }
    (simple_pod "nginx" (some "registry.io/app:v1"))
    (simple_pod_spec (some "registry.io/app:v1"))
    (some (simple_pod_spec (some "registry.io/app:v1@sha256:aa"))) 1
    rfl (by rfl)).1 rfl
  exact h

/-- C6: once any verification failure is recorded, the result is reject,
with no mutated object ever surfaced, regardless of the mutation flag. -/
theorem claim_C6 (oracle : Oracle) (settings : Settings) (r : Resource)
    (spec : PodSpec) (e : String) (n : Nat)
    (hspec : Resource.podSpec r = some spec)
    (herr : verify_all_images_in_pod oracle spec settings.signatures =
      some (.error e, n)) :
    validate_resource oracle settings (some r) =
      some (.reject (some ("Resource " ++ Resource.displayName r
        ++ " is not accepted: " ++ e)), n) := by
  simp [validate_resource, hspec, herr]

/-- Witness for C6: a concrete failing verification is rejected with no
mutation even though the mutation flag is set. -/
theorem claim_C6_witness :
    validate_resource fixture_oracle
      { signatures := [Signature.Keyless "nginx" [] none],
        modify_images_with_digest := true }
      (some (simple_pod "nginx" (some "nginx"))) =
      some (.reject (some ("Resource nginx is not accepted: "
        ++ "verification of image nginx failed: keyless rejected")), 1) := by
  have h := claim_C6 fixture_oracle
    { signatures := [Signature.Keyless "nginx" [] none],
      modify_images_with_digest := true }
    (simple_pod "nginx" (some "nginx")) (simple_pod_spec (some "nginx"))
    "verification of image nginx failed: keyless rejected" 1 rfl (by rfl)
  exact h

/-- C7: a policy whose glob pattern does not match the container's image is
skipped entirely; the signature loop's errors and oracle calls are
independent of the evolving working copy of the container (so matching is
performed against the image before any digest has been appended); a pattern
without wildcards matches only the exact full string, never a substring; and
a leading `*` matches any possibly-empty character sequence. -/
theorem claim_C7 :
    (∀ (T : Type) [_inst : ImageHolder T] (oracle : Oracle) (img : String)
       (sg : Signature) (rest : List Signature) (c : T) (errs : List String)
       (n : Nat),
      wildMatch (Signature.pattern sg) img = false →
      verify_signatures_loop oracle img c errs n (sg :: rest) =
        verify_signatures_loop oracle img c errs n rest) ∧
    (∀ (T : Type) [_inst : ImageHolder T] (oracle : Oracle) (img : String)
       (sigs : List Signature) (c c2 : T) (errs : List String) (n : Nat),
      (verify_signatures_loop oracle img c errs n sigs).2 =
        (verify_signatures_loop oracle img c2 errs n sigs).2) ∧
    (∀ p s : String, (∀ ch ∈ p.data, ch ≠ '*' ∧ ch ≠ '?') →
      (wildMatch p s = true ↔ p = s)) ∧
    (∀ ps s : List Char, wildMatchList ('*' :: ps) s = true ↔
      ∃ s1 s2, s = s1 ++ s2 ∧ wildMatchList ps s2 = true) := by
  refine ⟨?_, ?_, ?_, wildMatchList_star⟩
  · intro T _inst oracle img sg rest c errs n hm
    simp [verify_signatures_loop, hm]
  · intro T _inst oracle img sigs c c2 errs n
    exact verify_signatures_loop_effects_const oracle img sigs c c2 errs n
  · intro p s hp
    rw [wildMatch, wildMatchList_literal p.data hp s.data]
    exact ⟨fun h => String.ext h, fun h => by rw [h]⟩

/-- Witness for C7: a non-matching policy is skipped for a concrete
container, and a wildcard-free pattern matches only the identical string. -/
theorem claim_C7_witness :
    verify_signatures_loop fixture_oracle "other"
        ({ name := "app", image := some "other" } : Container) [] 0
        [Signature.PubKeys "nginx" ["k"] none] =
      verify_signatures_loop fixture_oracle "other"
        ({ name := "app", image := some "other" } : Container) [] 0 [] ∧
    (wildMatch "nginx" "nginx" = true ↔ ("nginx" : String) = "nginx") := by
  constructor
  · exact claim_C7.1 Container fixture_oracle "other"
      (Signature.PubKeys "nginx" ["k"] none) []
      { name := "app", image := some "other" } [] 0 (by decide)
  · exact claim_C7.2.2.1 "nginx" "nginx" (by decide)

/-- C8: the digest mutator is pure, total and idempotent: a digest already
contained in the reference is a no-op, otherwise the image becomes
`reference@digest`; applying it twice with the same digest equals applying
it once, and a freshly pinned reference contains its digest, so re-applying
on the pinned reference is also a no-op. -/
theorem claim_C8 (container_image digest : String) (c : Container) :
    (str_contains container_image digest = true →
      add_digest_if_not_present container_image digest c = c) ∧
    (str_contains container_image digest = false →
      (add_digest_if_not_present container_image digest c).image =
        some (container_image ++ "@" ++ digest)) ∧
    (add_digest_if_not_present container_image digest
        (add_digest_if_not_present container_image digest c) =
      add_digest_if_not_present container_image digest c) ∧
    str_contains (container_image ++ "@" ++ digest) digest = true ∧
    (add_digest_if_not_present (container_image ++ "@" ++ digest) digest
        (add_digest_if_not_present container_image digest c) =
      add_digest_if_not_present container_image digest c) := by
  have hsuf : str_contains (container_image ++ "@" ++ digest) digest = true :=
    str_contains_append (container_image ++ "@") digest
  refine ⟨?_, ?_, ?_, hsuf, ?_⟩
  · intro h
    simp [add_digest_if_not_present, h]
  · intro h
    simp [add_digest_if_not_present, h, ImageHolder.set_image]
  · by_cases h : str_contains container_image digest
    · simp [add_digest_if_not_present, h]
    · simp only [Bool.not_eq_true] at h
      simp [add_digest_if_not_present, h, ImageHolder.set_image]
  · simp [add_digest_if_not_present, hsuf]

/-- Witness for C8: pinning a concrete unpinned image yields the
`reference@digest` form. -/
theorem claim_C8_witness :
    (add_digest_if_not_present "nginx" "sha256:aa"
      ({ name := "app", image := some "nginx" } : Container)).image =
      some "nginx@sha256:aa" := by
  have h := (claim_C8 "nginx" "sha256:aa"
    { name := "app", image := some "nginx" }).2.1 (by decide)
  simpa using h

/-- C9: fail-open pass-through: a request whose kind is not one of the eight
supported kinds, or whose payload does not decode into the expected shape,
and a decoded resource carrying no pod spec, are all accepted unchanged with
zero oracle calls, no error, and no mutation. -/
theorem claim_C9 :
    (∀ (oracle : Oracle) (req : ValidationRequest),
      req.kind ∉ ["Deployment", "ReplicaSet", "StatefulSet", "DaemonSet",
        "ReplicationController", "Job", "CronJob", "Pod"] →
      validate oracle req = some (.accept, 0)) ∧
    (∀ (oracle : Oracle) (req : ValidationRequest),
      decode_object req.kind req.object = none →
      validate oracle req = some (.accept, 0)) ∧
    (∀ (oracle : Oracle) (settings : Settings) (r : Resource),
      Resource.podSpec r = none →
      validate_resource oracle settings (some r) = some (.accept, 0)) := by
  refine ⟨?_, ?_, ?_⟩
  · intro oracle req h
    unfold validate
    split
    all_goals simp_all [List.mem_cons]
  · intro oracle req h
    unfold validate
    split
    all_goals try rfl
    all_goals (rename_i heq; rw [heq] at h; rw [h]; rfl)
  · intro oracle settings r h
    simp [validate_resource, h]

/-- Witness for C9: an unsupported kind, a payload that does not decode as
the dispatched kind, and a deployment without a pod spec are each accepted
with zero oracle calls. -/
theorem claim_C9_witness :
    validate fixture_oracle
      { kind := "Service", object := none,
        settings := { signatures := [], modify_images_with_digest := true } } =
      some (.accept, 0) ∧
    validate fixture_oracle
      { kind := "Pod", object := some (.deployment (some "d") none),
        settings := { signatures := [], modify_images_with_digest := true } } =
      some (.accept, 0) ∧
    validate_resource fixture_oracle
      { signatures := [], modify_images_with_digest := true }
      (some (.deployment (some "d") none)) = some (.accept, 0) := by
  refine ⟨?_, ?_, ?_⟩
  · exact claim_C9.1 fixture_oracle _ (by decide)
  · exact claim_C9.2.1 fixture_oracle _ (by rfl)
  · exact claim_C9.2.2 fixture_oracle _ _ rfl

/-- C10: the rejection message is exactly the per-failure entries
`verification of image <image> failed: <cause>` for every failing
(container, policy) pair, joined with `", "` in encounter order (primary
containers first, then init, then ephemeral, each in container-then-policy
order) and prefixed with the resource's display name; a failure never
short-circuits the scan, so every failing pair contributes its own clause. -/
theorem claim_C10 (oracle : Oracle) (settings : Settings) (r : Resource)
    (spec : PodSpec) (resp : Response) (n : Nat)
    (hspec : Resource.podSpec r = some spec)
    (hrun : validate_resource oracle settings (some r) = some (resp, n))
    (hfail : spec_pod_failures oracle settings.signatures spec ≠ []) :
    resp = Response.reject (some ("Resource " ++ Resource.displayName r
      ++ " is not accepted: " ++ String.intercalate ", "
        (spec_pod_failures oracle settings.signatures spec))) :=
  validate_resource_reject_message oracle settings r spec resp n hspec hfail hrun

/-- Witness for C10: a pod with a failing primary container and a failing
init container is rejected with both clauses joined in encounter order. -/
theorem claim_C10_witness :
    (Response.reject (some ("Resource p is not accepted: "
      ++ "verification of image nginx failed: keyless rejected, "
      ++ "verification of image init failed: keyless rejected")) : Response) =
    Response.reject (some ("Resource "
      ++ Resource.displayName two_collection_pod ++ " is not accepted: "
      ++ String.intercalate ", " (spec_pod_failures fixture_oracle
        [Signature.Keyless "*" [] none] two_collection_pod_spec))) := by
  exact claim_C10 fixture_oracle
    { signatures := [Signature.Keyless "*" [] none],
      modify_images_with_digest := true }
    two_collection_pod two_collection_pod_spec _ 2 rfl (by decide) (by decide)

end VerifyImageSignatures
